import Mathlib

/-!
Shallow embedding of `sensu-habitat-check` (`src/main.go`, current version:
`checkArgs`, `executeCheck`, `getAllServices`, `checkServices`, `checkService`,
`getSupervisorUrl`).

Conventions of the embedding:
* The four sensu check states (`sensu.CheckStateOK = 0`, `Warning = 1`,
  `Critical = 2`, `Unknown = 3`) become the inductive `CheckState`.
* HTTP traffic is abstracted by oracles: the enumeration call
  (`getAllServices`) becomes a value `Except String (List String)` (an error
  covers both a network failure and a JSON decode failure, as both surface as
  a non-nil `error` in Go), and each per-service health call becomes
  `HealthCallResult` (a network/request error, or a response with a status
  code and a decode outcome for the JSON body's `status` field).
* `fmt.Printf` output is collected as a `List String` of printed chunks, in
  print order.
* A Go panic (the out-of-range index `serviceSplit[1]` in `checkService`) is
  modelled by `Option`: `none` means the run panics.
* `strings.EqualFold` is modelled by ASCII case folding (`lowerAscii`); the
  status words compared against are all ASCII, where Go's Unicode simple
  folding and ASCII folding agree.
-/

namespace HabitatCheck

/-- The sensu check states used by the plugin. -/
inductive CheckState where
  | ok
  | warning
  | critical
  | unknown
deriving Repr, DecidableEq

/-- Structure `Health` from `src/main.go`: the per-service result record
(`ServiceGroup`, `Status`, `Error`; a nil Go error is `none`). -/
structure Health where
  serviceGroup : String
  status : CheckState
  error : Option String
deriving Repr, DecidableEq

/-- Outcome of one per-service health HTTP call, as observed by
`checkService`: either the request fails before a response is obtained
(`http.NewRequest` or `client.Do` error), or a response arrives with a
status code and, for its body, a JSON decode outcome for the `status`
field (`Except.ok s` means the body decoded with `status` field `s`). -/
inductive HealthCallResult where
  | netErr (msg : String)
  | response (code : Nat) (body : Except String String)
deriving Repr

/-- ASCII lower-casing of one character (the fragment of Go's case folding
relevant to the ASCII status words). -/
def lowerAscii (c : Char) : Char :=
  if 65 ≤ c.toNat ∧ c.toNat ≤ 90 then Char.ofNat (c.toNat + 32) else c

/-- Model of `strings.EqualFold` for the ASCII words compared in the source. -/
def eqFold (a b : String) : Bool :=
  a.data.map lowerAscii == b.data.map lowerAscii

/-- Split a character list at the first occurrence of `sep`:
`none` when `sep` does not occur. -/
def splitFirst (sep : Char) : List Char → Option (List Char × List Char)
  | [] => none
  | c :: rest =>
    if c = sep then some ([], rest)
    else
      match splitFirst sep rest with
      | none => none
      | some (a, b) => some (c :: a, b)

/-- Model of `strings.SplitN(s, ".", 2)`: one element when `s` has no `.`, otherwise
the part before the first `.` and the rest. -/
def splitN2 (s : String) : List String :=
  match splitFirst '.' s.data with
  | none => [s]
  | some (a, b) => [String.mk a, String.mk b]

/-- The `switch h.Status` body of `checkService`'s decode branch: the
if/else-if chain over `strings.EqualFold(hResp.Status, ...)`.  `result.Status`
starts at `CheckStateUnknown`, so a string matching no branch also yields
`unknown`. -/
def healthStatusOf (s : String) : CheckState :=
  if eqFold s "ok" then CheckState.ok
  else if eqFold s "warning" then CheckState.warning
  else if eqFold s "critical" then CheckState.critical
  else if eqFold s "unknown" then CheckState.unknown
  else CheckState.unknown

/-- The body of `checkService` after the `serviceSplit[1]` access has
succeeded, driven by the oracle for this service's health call.  Mirrors
`src/main.go` lines 198-240: a request/network error stores the error and
leaves the status at `unknown`; a non-200 response leaves `unknown` with no
error; a 200 response either stores the decode error (status `unknown`) or
maps the decoded `status` field through the `EqualFold` chain. -/
def checkServiceBody (oracle : String → HealthCallResult) (service : String) :
    Health :=
  match oracle service with
  | HealthCallResult.netErr msg =>
    { serviceGroup := service, status := CheckState.unknown, error := some msg }
  | HealthCallResult.response code body =>
    if code = 200 then
      match body with
      | Except.error msg =>
        { serviceGroup := service, status := CheckState.unknown,
          error := some ("failed to decode health response: " ++ msg) }
      | Except.ok stv =>
        { serviceGroup := service, status := healthStatusOf stv, error := none }
    else
      { serviceGroup := service, status := CheckState.unknown, error := none }

/-- Function `checkService`: builds the request URL from `serviceSplit[0]` and
`serviceSplit[1]` — the index `serviceSplit[1]` is accessed without a length
check, so a service string without a `.` panics (`none`). -/
def checkService (oracle : String → HealthCallResult) (service : String) :
    Option Health :=
  match (splitN2 service)[1]? with
  | none => none
  | some _ => some (checkServiceBody oracle service)

/-- Function `checkServices`: loops `checkService` over the list, collecting the
results in order; a panic in any iteration aborts the whole run (`none`). -/
def checkServices (oracle : String → HealthCallResult) :
    List String → Option (List Health)
  | [] => some []
  | s :: rest =>
    match checkService oracle s with
    | none => none
    | some h =>
      match checkServices oracle rest with
      | none => none
      | some hs => some (h :: hs)

/-- Total wrapper for `checkService` used to state theorems about runs where
no panic occurs (the default is irrelevant there). -/
def checkServiceD (oracle : String → HealthCallResult) (service : String) :
    Health :=
  (checkService oracle service).getD
    { serviceGroup := service, status := CheckState.unknown, error := none }

/-- Accumulator of `executeCheck`'s reporting loop: the four counters, the
`found` flag and the `fmt.Printf` output so far. -/
structure LoopState where
  oks : Nat
  warnings : Nat
  criticals : Nat
  unknowns : Nat
  found : Bool
  output : List String
deriving Repr, DecidableEq

/-- Uppercase word printed for a status (the `switch` prints no line in the
`CheckStateOK` case). -/
def statusWord : CheckState → String
  | CheckState.ok => "OK"
  | CheckState.warning => "WARNING"
  | CheckState.critical => "CRITICAL"
  | CheckState.unknown => "UNKNOWN"

/-- One iteration of the `for _, h := range health` loop in `executeCheck`:
set `found`, bump the counter for `h.Status` (printing the per-service line
for the non-OK cases), then print the error paragraph when `h.Error != nil`. -/
def loopStep (st : LoopState) (h : Health) : LoopState :=
  let st1 : LoopState := { st with found := true }
  let st2 : LoopState :=
    match h.status with
    | CheckState.ok => { st1 with oks := st1.oks + 1 }
    | CheckState.warning =>
      { st1 with
          warnings := st1.warnings + 1,
          output := st1.output ++ [h.serviceGroup ++ " WARNING"] }
    | CheckState.critical =>
      { st1 with
          criticals := st1.criticals + 1,
          output := st1.output ++ [h.serviceGroup ++ " CRITICAL"] }
    | CheckState.unknown =>
      { st1 with
          unknowns := st1.unknowns + 1,
          output := st1.output ++ [h.serviceGroup ++ " UNKNOWN"] }
  match h.error with
  | some e =>
    { st2 with output := st2.output ++
        ["Error occured while checking service:\n" ++ e ++ "\n"] }
  | none => st2

/-- Initial accumulator (`oks := 0` etc., `found := false`, nothing printed). -/
def initLoop : LoopState :=
  { oks := 0, warnings := 0, criticals := 0, unknowns := 0,
    found := false, output := [] }

/-- The whole reporting loop of `executeCheck` over the collected healths. -/
def runLoop (hs : List Health) : LoopState :=
  hs.foldl loopStep initLoop

/-- The check state `executeCheck` returns after the loop:
`criticals > 0 || unknowns > 0` → critical, else `warnings > 0` → warning,
else OK. -/
def finalState (st : LoopState) : CheckState :=
  if 0 < st.criticals ∨ 0 < st.unknowns then CheckState.critical
  else if 0 < st.warnings then CheckState.warning
  else CheckState.ok

/-- Aggregate check state computed by `executeCheck` from the healths. -/
def aggregateState (hs : List Health) : CheckState :=
  finalState (runLoop hs)

/-- Output chunks contributed by one health's error field. -/
def errLines : Option String → List String
  | some e => ["Error occured while checking service:\n" ++ e ++ "\n"]
  | none => []

/-- Output chunks one health contributes to the loop's output: the
per-service status line for a non-OK status, then the error paragraph. -/
def healthLines (h : Health) : List String :=
  (match h.status with
   | CheckState.ok => []
   | CheckState.warning => [h.serviceGroup ++ " WARNING"]
   | CheckState.critical => [h.serviceGroup ++ " CRITICAL"]
   | CheckState.unknown => [h.serviceGroup ++ " UNKNOWN"]) ++ errLines h.error

/-- What one execution of `executeCheck` produces: the returned check state,
the returned Go error (nil = `none`), and everything printed, in order. -/
structure ExecOutcome where
  state : CheckState
  err : Option String
  output : List String
deriving Repr, DecidableEq

/-- The tail of `executeCheck` after the healths are collected: the loop and
the aggregate return branches; the all-OK / no-services trailing message is
printed only in the OK branches. -/
def report (hs : List Health) : ExecOutcome :=
  let st := runLoop hs
  if 0 < st.criticals ∨ 0 < st.unknowns then
    { state := CheckState.critical, err := none, output := st.output }
  else if 0 < st.warnings then
    { state := CheckState.warning, err := none, output := st.output }
  else if st.found then
    { state := CheckState.ok, err := none,
      output := st.output ++
        ["All health checks returning OK for loaded services"] }
  else
    { state := CheckState.ok, err := none,
      output := st.output ++ ["No services loaded"] }

/-- Tail of `executeCheck` from the point where the service list is fixed: collect
the healths with `checkServices` (`none` = panic) and report. -/
def runCheck (oracle : String → HealthCallResult) (services : List String) :
    Option ExecOutcome :=
  match checkServices oracle services with
  | none => none
  | some hs => some (report hs)

/-- Function `executeCheck` (`src/main.go` lines 100-157).  `pluginServices` is
`plugin.Services`; `enum` is the outcome `getAllServices` would produce
(`Except.error` = request or decode failure, already carrying its message);
`oracle` drives each per-service health call.  When the explicit list is
empty the enumeration outcome is consulted and a failure returns critical
with the wrapped error before any per-service call. -/
def executeCheck (pluginServices : List String)
    (enum : Except String (List String))
    (oracle : String → HealthCallResult) : Option ExecOutcome :=
  match (if pluginServices.length = 0 then enum else Except.ok pluginServices) with
  | Except.error e =>
    some { state := CheckState.critical,
           err := some ("could not retrieve services: " ++ e), output := [] }
  | Except.ok services => runCheck oracle services

/-- First element of `plugin.Services` failing the `len(serviceSplit) != 2`
test in `checkArgs` (the loop returns on the first malformed entry). -/
def firstMalformed : List String → Option String
  | [] => none
  | s :: rest =>
    if (splitN2 s).length ≠ 2 then some s else firstMalformed rest

/-- Function `checkArgs` (`src/main.go` lines 68-84).  `urlParseErr` is the outcome of
`url.Parse(plugin.SupervisorURL)` (`none` = parses).  Returns the check state
and the Go error.  The source guards the loop with `len(plugin.Services) > 0`,
which is behaviourally redundant (the loop body never runs on an empty
list). -/
def checkArgs (services : List String) (urlParseErr : Option String) :
    CheckState × Option String :=
  match firstMalformed services with
  | some s =>
    (CheckState.warning,
     some ("--service \"" ++ s ++
       "\" value malformed should be \"service_name.service_group\""))
  | none =>
    match urlParseErr with
    | some e =>
      (CheckState.warning, some ("failed to parse supervisor URL: " ++ e))
    | none => (CheckState.ok, none)

/-- Function `getSupervisorUrl`: `strings.TrimSuffix(plugin.SupervisorURL, "/")` —
removes one trailing `/` when present. -/
def getSupervisorUrl (base : String) : String :=
  if base.data.getLast? = some '/' then String.mk base.data.dropLast else base

/-- Request URL of the enumeration call in `getAllServices`. -/
def serviceListUrl (base : String) : String :=
  getSupervisorUrl base ++ "/services"

/-- Request URL of one per-service health call in `checkService`, built from
`serviceSplit[0]` and `serviceSplit[1]`. -/
def serviceHealthUrl (base name group : String) : String :=
  getSupervisorUrl base ++ "/services/" ++ name ++ "/" ++ group ++ "/health"

/-! ### Lemmas: the split and the panic precondition -/

theorem splitFirst_eq_none_iff (sep : Char) (l : List Char) :
    splitFirst sep l = none ↔ sep ∉ l := by
  induction l with
  | nil => simp [splitFirst]
  | cons c rest ih =>
    by_cases hc : c = sep
    · subst hc
      simp [splitFirst]
    · simp only [splitFirst, if_neg hc]
      cases hrec : splitFirst sep rest with
      | none =>
        have hmem := (ih).mp hrec
        have hcs : ¬sep = c := fun hx => hc hx.symm
        simp [List.mem_cons, hmem, hcs]
      | some ab =>
        have hmem : sep ∈ rest := by
          by_contra hn
          rw [ih.mpr hn] at hrec
          exact Option.noConfusion hrec
        simp [List.mem_cons, hmem]

theorem splitN2_length_eq_two_iff (s : String) :
    (splitN2 s).length = 2 ↔ '.' ∈ s.data := by
  unfold splitN2
  cases h : splitFirst '.' s.data with
  | none =>
    have := (splitFirst_eq_none_iff '.' s.data).mp h
    simp [this]
  | some ab =>
    have hmem : '.' ∈ s.data := by
      by_contra hn
      rw [(splitFirst_eq_none_iff '.' s.data).mpr hn] at h
      exact Option.noConfusion h
    obtain ⟨a, b⟩ := ab
    simp [hmem]

theorem checkService_eq (oracle : String → HealthCallResult) (s : String) :
    checkService oracle s =
      if '.' ∈ s.data then some (checkServiceBody oracle s) else none := by
  unfold checkService splitN2
  cases h : splitFirst '.' s.data with
  | none =>
    have := (splitFirst_eq_none_iff '.' s.data).mp h
    simp [this]
  | some ab =>
    have hmem : '.' ∈ s.data := by
      by_contra hn
      rw [(splitFirst_eq_none_iff '.' s.data).mpr hn] at h
      exact Option.noConfusion h
    obtain ⟨a, b⟩ := ab
    simp [hmem]

theorem checkServiceD_eq (oracle : String → HealthCallResult) (s : String)
    (h : '.' ∈ s.data) : checkServiceD oracle s = checkServiceBody oracle s := by
  simp [checkServiceD, checkService_eq, h]

theorem checkServices_eq_map (oracle : String → HealthCallResult)
    (svcs : List String) (h : ∀ t ∈ svcs, '.' ∈ t.data) :
    checkServices oracle svcs = some (svcs.map (checkServiceD oracle)) := by
  induction svcs with
  | nil => simp [checkServices]
  | cons s rest ih =>
    have hd : '.' ∈ s.data := h s (by simp)
    have hrest := ih (fun t ht => h t (by simp [ht]))
    simp [checkServices, checkService_eq, hd, hrest, checkServiceD_eq oracle s hd]

/-! ### Lemmas: the reporting loop -/

theorem loopStep_eq (st : LoopState) (h : Health) :
    loopStep st h =
      { oks := st.oks + (if h.status = CheckState.ok then 1 else 0),
        warnings := st.warnings + (if h.status = CheckState.warning then 1 else 0),
        criticals := st.criticals + (if h.status = CheckState.critical then 1 else 0),
        unknowns := st.unknowns + (if h.status = CheckState.unknown then 1 else 0),
        found := true,
        output := st.output ++ healthLines h } := by
  obtain ⟨g, s, e⟩ := h
  cases s <;> cases e <;> simp [loopStep, healthLines, errLines]

theorem foldl_loopStep_eq (hs : List Health) : ∀ st : LoopState,
    hs.foldl loopStep st =
      { oks := st.oks + hs.countP (fun h => h.status == CheckState.ok),
        warnings := st.warnings + hs.countP (fun h => h.status == CheckState.warning),
        criticals := st.criticals + hs.countP (fun h => h.status == CheckState.critical),
        unknowns := st.unknowns + hs.countP (fun h => h.status == CheckState.unknown),
        found := st.found || !hs.isEmpty,
        output := st.output ++ hs.flatMap healthLines } := by
  induction hs with
  | nil => intro st; simp
  | cons h t ih =>
    intro st
    rw [List.foldl_cons, ih, loopStep_eq]
    obtain ⟨g, s, e⟩ := h
    cases s <;> simp [List.countP_cons] <;> omega

theorem runLoop_eq (hs : List Health) :
    runLoop hs =
      { oks := hs.countP (fun h => h.status == CheckState.ok),
        warnings := hs.countP (fun h => h.status == CheckState.warning),
        criticals := hs.countP (fun h => h.status == CheckState.critical),
        unknowns := hs.countP (fun h => h.status == CheckState.unknown),
        found := !hs.isEmpty,
        output := hs.flatMap healthLines } := by
  rw [runLoop, foldl_loopStep_eq]
  simp [initLoop]

/-! ### Lemmas: the aggregate state and the report -/

theorem countP_status_pos_iff (hs : List Health) (c : CheckState) :
    0 < hs.countP (fun h => h.status == c) ↔ ∃ h ∈ hs, h.status = c := by
  simp [List.countP_pos_iff]

theorem aggregate_critical_iff (hs : List Health) :
    aggregateState hs = CheckState.critical ↔
      ∃ h ∈ hs, h.status = CheckState.critical ∨ h.status = CheckState.unknown := by
  rw [aggregateState, finalState, runLoop_eq]
  by_cases hcu :
      0 < hs.countP (fun h => h.status == CheckState.critical) ∨
      0 < hs.countP (fun h => h.status == CheckState.unknown)
  · simp only [hcu, if_true, true_iff]
    rcases hcu with hc | hu
    · obtain ⟨h, hmem, hst⟩ := (countP_status_pos_iff hs _).mp hc
      exact ⟨h, hmem, Or.inl hst⟩
    · obtain ⟨h, hmem, hst⟩ := (countP_status_pos_iff hs _).mp hu
      exact ⟨h, hmem, Or.inr hst⟩
  · simp only [hcu, if_false]
    constructor
    · intro hcontra
      by_cases hw : 0 < hs.countP (fun h => h.status == CheckState.warning) <;>
        simp [hw] at hcontra
    · rintro ⟨h, hmem, hst | hst⟩
      · exact absurd (Or.inl ((countP_status_pos_iff hs _).mpr ⟨h, hmem, hst⟩)) hcu
      · exact absurd (Or.inr ((countP_status_pos_iff hs _).mpr ⟨h, hmem, hst⟩)) hcu

theorem aggregate_warning_iff (hs : List Health) :
    aggregateState hs = CheckState.warning ↔
      (¬∃ h ∈ hs, h.status = CheckState.critical ∨ h.status = CheckState.unknown) ∧
      (∃ h ∈ hs, h.status = CheckState.warning) := by
  rw [aggregateState, finalState, runLoop_eq]
  by_cases hcu :
      0 < hs.countP (fun h => h.status == CheckState.critical) ∨
      0 < hs.countP (fun h => h.status == CheckState.unknown)
  · simp only [hcu, if_true]
    constructor
    · intro hcontra
      exact absurd hcontra (by simp)
    · rintro ⟨hno, -⟩
      exfalso
      rcases hcu with hc | hu
      · obtain ⟨h, hmem, hst⟩ := (countP_status_pos_iff hs _).mp hc
        exact hno ⟨h, hmem, Or.inl hst⟩
      · obtain ⟨h, hmem, hst⟩ := (countP_status_pos_iff hs _).mp hu
        exact hno ⟨h, hmem, Or.inr hst⟩
  · simp only [hcu, if_false]
    have hno : ¬∃ h ∈ hs, h.status = CheckState.critical ∨ h.status = CheckState.unknown := by
      rintro ⟨h, hmem, hst | hst⟩
      · exact hcu (Or.inl ((countP_status_pos_iff hs _).mpr ⟨h, hmem, hst⟩))
      · exact hcu (Or.inr ((countP_status_pos_iff hs _).mpr ⟨h, hmem, hst⟩))
    by_cases hw : 0 < hs.countP (fun h => h.status == CheckState.warning)
    · rw [if_pos hw]
      constructor
      · intro _
        exact ⟨hno, (countP_status_pos_iff hs _).mp hw⟩
      · intro _
        rfl
    · simp only [hw, if_false]
      constructor
      · intro hcontra
        exact absurd hcontra (by simp)
      · rintro ⟨-, hex⟩
        exact absurd ((countP_status_pos_iff hs _).mpr hex) hw

theorem aggregate_ok_iff (hs : List Health) :
    aggregateState hs = CheckState.ok ↔
      (¬∃ h ∈ hs, h.status = CheckState.critical ∨ h.status = CheckState.unknown) ∧
      (¬∃ h ∈ hs, h.status = CheckState.warning) := by
  have h3 : aggregateState hs = CheckState.critical ∨
      aggregateState hs = CheckState.warning ∨ aggregateState hs = CheckState.ok := by
    rw [aggregateState, finalState]
    by_cases h1 : 0 < (runLoop hs).criticals ∨ 0 < (runLoop hs).unknowns
    · simp [h1]
    · by_cases h2 : 0 < (runLoop hs).warnings <;> simp [h1, h2]
  constructor
  · intro hok
    constructor
    · intro hex
      have := (aggregate_critical_iff hs).mpr hex
      rw [hok] at this
      exact CheckState.noConfusion this
    · intro hex
      rcases h3 with hC | hW | hO
      · have := (aggregate_critical_iff hs).mp hC
        rw [hok] at hC
        exact CheckState.noConfusion hC
      · rw [hok] at hW
        exact CheckState.noConfusion hW
      · have hnc := (aggregate_critical_iff hs)
        by_cases hcu : ∃ h ∈ hs, h.status = CheckState.critical ∨ h.status = CheckState.unknown
        · have := hnc.mpr hcu
          rw [hok] at this
          exact CheckState.noConfusion this
        · have := (aggregate_warning_iff hs).mpr ⟨hcu, hex⟩
          rw [hok] at this
          exact CheckState.noConfusion this
  · rintro ⟨hno1, hno2⟩
    rcases h3 with hC | hW | hO
    · exact absurd ((aggregate_critical_iff hs).mp hC) hno1
    · exact absurd ((aggregate_warning_iff hs).mp hW).2 hno2
    · exact hO

theorem report_nil :
    report [] = { state := CheckState.ok, err := none,
                  output := ["No services loaded"] } := by
  simp [report, runLoop, initLoop]

theorem report_critical (hs : List Health)
    (h : ∃ x ∈ hs, x.status = CheckState.critical ∨ x.status = CheckState.unknown) :
    report hs = { state := CheckState.critical, err := none,
                  output := hs.flatMap healthLines } := by
  have hpos : 0 < (runLoop hs).criticals ∨ 0 < (runLoop hs).unknowns := by
    rw [runLoop_eq]
    rcases h with ⟨x, hmem, hst | hst⟩
    · exact Or.inl ((countP_status_pos_iff hs _).mpr ⟨x, hmem, hst⟩)
    · exact Or.inr ((countP_status_pos_iff hs _).mpr ⟨x, hmem, hst⟩)
  have hout : (runLoop hs).output = hs.flatMap healthLines := by rw [runLoop_eq]
  simp [report, hpos, hout]

theorem report_warning (hs : List Health)
    (h1 : ¬∃ x ∈ hs, x.status = CheckState.critical ∨ x.status = CheckState.unknown)
    (h2 : ∃ x ∈ hs, x.status = CheckState.warning) :
    report hs = { state := CheckState.warning, err := none,
                  output := hs.flatMap healthLines } := by
  have hno : ¬(0 < (runLoop hs).criticals ∨ 0 < (runLoop hs).unknowns) := by
    rw [runLoop_eq]
    rintro (hc | hu)
    · obtain ⟨x, hmem, hst⟩ := (countP_status_pos_iff hs _).mp hc
      exact h1 ⟨x, hmem, Or.inl hst⟩
    · obtain ⟨x, hmem, hst⟩ := (countP_status_pos_iff hs _).mp hu
      exact h1 ⟨x, hmem, Or.inr hst⟩
  have hpos : 0 < (runLoop hs).warnings := by
    rw [runLoop_eq]
    exact (countP_status_pos_iff hs _).mpr h2
  have hout : (runLoop hs).output = hs.flatMap healthLines := by rw [runLoop_eq]
  simp [report, hno, hpos, hout]

theorem report_all_ok (hs : List Health) (hne : hs ≠ [])
    (hall : ∀ x ∈ hs, x.status = CheckState.ok) :
    report hs = { state := CheckState.ok, err := none,
                  output := hs.flatMap healthLines ++
                    ["All health checks returning OK for loaded services"] } := by
  have hnc : ¬(0 < (runLoop hs).criticals ∨ 0 < (runLoop hs).unknowns) := by
    rw [runLoop_eq]
    rintro (hc | hu)
    · obtain ⟨x, hmem, hst⟩ := (countP_status_pos_iff hs _).mp hc
      rw [hall x hmem] at hst
      exact CheckState.noConfusion hst
    · obtain ⟨x, hmem, hst⟩ := (countP_status_pos_iff hs _).mp hu
      rw [hall x hmem] at hst
      exact CheckState.noConfusion hst
  have hnw : ¬(0 < (runLoop hs).warnings) := by
    rw [runLoop_eq]
    intro hw
    obtain ⟨x, hmem, hst⟩ := (countP_status_pos_iff hs _).mp hw
    rw [hall x hmem] at hst
    exact CheckState.noConfusion hst
  have hfound : (runLoop hs).found = true := by
    rw [runLoop_eq]
    simp [hne]
  have hout : (runLoop hs).output = hs.flatMap healthLines := by rw [runLoop_eq]
  simp [report, hnc, hnw, hfound, hout]

/-! ### Lemmas: executeCheck branches -/

theorem executeCheck_nil_err (oracle : String → HealthCallResult) (e : String) :
    executeCheck [] (Except.error e) oracle =
      some { state := CheckState.critical,
             err := some ("could not retrieve services: " ++ e), output := [] } := rfl

theorem executeCheck_nil_ok (oracle : String → HealthCallResult)
    (svcs : List String) (enum : Except String (List String))
    (henum : enum = Except.ok svcs) :
    executeCheck [] enum oracle = runCheck oracle svcs := by
  rw [henum]
  rfl

theorem executeCheck_explicit (oracle : String → HealthCallResult)
    (svcs : List String) (enum : Except String (List String)) (hne : svcs ≠ []) :
    executeCheck svcs enum oracle = runCheck oracle svcs := by
  cases svcs with
  | nil => exact absurd rfl hne
  | cons s rest => rfl

theorem runCheck_eq_of_valid (oracle : String → HealthCallResult)
    (svcs : List String) (h : ∀ t ∈ svcs, '.' ∈ t.data) :
    runCheck oracle svcs = some (report (svcs.map (checkServiceD oracle))) := by
  simp [runCheck, checkServices_eq_map oracle svcs h]

/-- A health produced by `checkService` with an OK status carries no error
(every error path of `checkService` leaves the status at `unknown`). -/
theorem checkServiceBody_ok_no_error (oracle : String → HealthCallResult)
    (s : String) (h : (checkServiceBody oracle s).status = CheckState.ok) :
    (checkServiceBody oracle s).error = none := by
  cases horacle : oracle s with
  | netErr msg => simp [checkServiceBody, horacle] at h
  | response code body =>
    by_cases hcode : code = 200
    · subst hcode
      cases body with
      | error msg => simp [checkServiceBody, horacle] at h
      | ok stv => simp [checkServiceBody, horacle]
    · simp [checkServiceBody, horacle, hcode] at h

theorem healthLines_ok_of_no_error (h : Health) (hst : h.status = CheckState.ok)
    (herr : h.error = none) : healthLines h = [] := by
  obtain ⟨g, s, e⟩ := h
  simp only at hst herr
  subst hst
  subst herr
  simp [healthLines, errLines]

/-! ### Lemmas: URL building -/

theorem getSupervisorUrl_append_slash (b : String) :
    getSupervisorUrl (b ++ "/") = b := by
  unfold getSupervisorUrl
  have hdata : (b ++ "/").data = b.data ++ ['/'] := by
    simp [String.data_append]
  rw [hdata, List.getLast?_concat, List.dropLast_concat]
  simp

theorem getSupervisorUrl_of_no_slash (b : String)
    (h : b.data.getLast? ≠ some '/') : getSupervisorUrl b = b := by
  unfold getSupervisorUrl
  rw [if_neg h]

/-! ### Lemmas: checkArgs -/

theorem firstMalformed_eq_none (svcs : List String)
    (h : firstMalformed svcs = none) : ∀ s ∈ svcs, (splitN2 s).length = 2 := by
  induction svcs with
  | nil => intro s hs; exact absurd hs (List.not_mem_nil s)
  | cons t rest ih =>
    intro s hs
    unfold firstMalformed at h
    by_cases ht : (splitN2 t).length ≠ 2
    · rw [if_pos ht] at h
      exact Option.noConfusion h
    · rw [if_neg ht] at h
      rcases List.mem_cons.mp hs with hrfl | hmem
      · rw [hrfl]
        exact not_ne_iff.mp ht
      · exact ih h s hmem

theorem firstMalformed_eq_some (svcs : List String) (s : String)
    (h : firstMalformed svcs = some s) :
    s ∈ svcs ∧ (splitN2 s).length ≠ 2 := by
  induction svcs with
  | nil => exact Option.noConfusion h
  | cons t rest ih =>
    unfold firstMalformed at h
    by_cases ht : (splitN2 t).length ≠ 2
    · rw [if_pos ht] at h
      obtain hrfl := Option.some.inj h
      subst hrfl
      exact ⟨List.mem_cons_self t rest, ht⟩
    · rw [if_neg ht] at h
      obtain ⟨hmem, hlen⟩ := ih h
      exact ⟨List.mem_cons_of_mem t hmem, hlen⟩

theorem checkArgs_warning_iff (svcs : List String) (urlParseErr : Option String) :
    (checkArgs svcs urlParseErr).1 = CheckState.warning ↔
      (∃ s ∈ svcs, '.' ∉ s.data) ∨ urlParseErr ≠ none := by
  unfold checkArgs
  cases hfm : firstMalformed svcs with
  | some s =>
    obtain ⟨hmem, hlen⟩ := firstMalformed_eq_some svcs s hfm
    have hnd : '.' ∉ s.data := fun hd => hlen ((splitN2_length_eq_two_iff s).mpr hd)
    exact iff_of_true rfl (Or.inl ⟨s, hmem, hnd⟩)
  | none =>
    cases urlParseErr with
    | some e => exact iff_of_true rfl (Or.inr (by simp))
    | none =>
      have hnr : ¬((∃ s ∈ svcs, '.' ∉ s.data) ∨ (none : Option String) ≠ none) := by
        rintro (⟨s, hmem, hnd⟩ | hne)
        · exact hnd ((splitN2_length_eq_two_iff s).mp
            (firstMalformed_eq_none svcs hfm s hmem))
        · exact hne rfl
      exact iff_of_false (by decide) hnr

/-! ### Lemmas: EqualFold and the status words -/

theorem eqFold_iff (a b : String) :
    eqFold a b = true ↔ a.data.map lowerAscii = b.data.map lowerAscii := by
  simp [eqFold]

theorem eqFold_unique (s w1 w2 : String)
    (h1 : eqFold s w1 = true) (h2 : eqFold s w2 = true)
    (hne : w1.data.map lowerAscii ≠ w2.data.map lowerAscii) : False := by
  rw [eqFold_iff] at h1 h2
  exact hne (h1.symm.trans h2)

/-! ### Claim theorems -/

/-- C1: for every collection of per-service health values, the aggregate
result computed by the check executor is CRITICAL iff some service's health
is CRITICAL or UNKNOWN; with none such, it is WARNING iff some service's
health is WARNING; and with no WARNING either, it is OK. -/
theorem c1_aggregate_precedence (hs : List Health) :
    (aggregateState hs = CheckState.critical ↔
      ∃ h ∈ hs, h.status = CheckState.critical ∨ h.status = CheckState.unknown) ∧
    ((¬∃ h ∈ hs, h.status = CheckState.critical ∨ h.status = CheckState.unknown) →
      (aggregateState hs = CheckState.warning ↔
        ∃ h ∈ hs, h.status = CheckState.warning)) ∧
    ((¬∃ h ∈ hs, h.status = CheckState.critical ∨ h.status = CheckState.unknown) →
      (¬∃ h ∈ hs, h.status = CheckState.warning) →
      aggregateState hs = CheckState.ok) := by
  refine ⟨aggregate_critical_iff hs, ?_, ?_⟩
  · intro hno
    constructor
    · intro hw
      exact ((aggregate_warning_iff hs).mp hw).2
    · intro hex
      exact (aggregate_warning_iff hs).mpr ⟨hno, hex⟩
  · intro hno1 hno2
    exact (aggregate_ok_iff hs).mpr ⟨hno1, hno2⟩

/-- Witness for C1 at a concrete collection: a WARNING next to an OK health
aggregates to WARNING. -/
theorem c1_aggregate_precedence_witness :
    aggregateState
      [{ serviceGroup := "a.b", status := CheckState.warning, error := none },
       { serviceGroup := "c.d", status := CheckState.ok, error := none }] =
      CheckState.warning :=
  ((c1_aggregate_precedence _).2.1 (by decide)).mpr (by decide)

/-- C2 counterexample: the claim says an identifier that does not split into
two NON-EMPTY parts on the first `.` is rejected with a warning, and that
identifiers with more than one `.` are rejected; but `checkArgs` accepts
`"."` (which splits into two empty parts) with an OK result and no error. -/
theorem c2_checkArgs_counterexample :
    checkArgs ["."] none = (CheckState.ok, none) ∧ splitN2 "." = ["", ""] := by
  constructor
  · rfl
  · decide

/-- C2 (amended): the argument validator fails with a warning-level result
iff some supplied identifier contains no `.` at all (so `SplitN` yields
fewer than two parts) or the supervisor URL fails to parse; emptiness of the
name/group parts and extra `.` separators are not checked.  Otherwise it
succeeds with OK and no error. -/
theorem c2_checkArgs_amended (svcs : List String) (urlParseErr : Option String) :
    ((checkArgs svcs urlParseErr).1 = CheckState.warning ↔
      (∃ s ∈ svcs, '.' ∉ s.data) ∨ urlParseErr ≠ none) ∧
    ((checkArgs svcs urlParseErr).1 = CheckState.warning ∨
      checkArgs svcs urlParseErr = (CheckState.ok, none)) := by
  refine ⟨checkArgs_warning_iff svcs urlParseErr, ?_⟩
  unfold checkArgs
  cases hfm : firstMalformed svcs with
  | some s => exact Or.inl rfl
  | none =>
    cases urlParseErr with
    | some e => exact Or.inl rfl
    | none => exact Or.inr rfl

/-- Witness for C2 (amended): an identifier with no `.` is rejected with a
warning. -/
theorem c2_checkArgs_amended_witness :
    (checkArgs ["nodot"] none).1 = CheckState.warning :=
  (c2_checkArgs_amended ["nodot"] none).1.mpr (Or.inl (by decide))

/-- C4: with no explicit service list, a failed enumeration (network or
decode error, carried by the `Except.error`) makes the whole check return
critical with the wrapped error; the outcome is the same for every health
oracle and prints nothing, so no per-service health request is consulted. -/
theorem c4_enumeration_failure_fatal (oracle : String → HealthCallResult)
    (e : String) :
    executeCheck [] (Except.error e) oracle =
      some { state := CheckState.critical,
             err := some ("could not retrieve services: " ++ e),
             output := [] } := rfl

/-- C7: the `status` field of a health response is parsed case-insensitively
(via the `EqualFold` chain) into the four check states, and a value folding
to none of the four words yields UNKNOWN — the default `result.Status` kept
when no explicit mapping succeeds. -/
theorem c7_status_parse (s : String) :
    (eqFold s "ok" = true → healthStatusOf s = CheckState.ok) ∧
    (eqFold s "warning" = true → healthStatusOf s = CheckState.warning) ∧
    (eqFold s "critical" = true → healthStatusOf s = CheckState.critical) ∧
    (eqFold s "unknown" = true → healthStatusOf s = CheckState.unknown) ∧
    (eqFold s "ok" = false → eqFold s "warning" = false →
      eqFold s "critical" = false → healthStatusOf s = CheckState.unknown) := by
  refine ⟨?_, ?_, ?_, ?_, ?_⟩
  · intro h
    rw [healthStatusOf, if_pos h]
  · intro h
    have hok : ¬(eqFold s "ok" = true) := fun h0 =>
      eqFold_unique s "ok" "warning" h0 h (by decide)
    rw [healthStatusOf, if_neg hok, if_pos h]
  · intro h
    have hok : ¬(eqFold s "ok" = true) := fun h0 =>
      eqFold_unique s "ok" "critical" h0 h (by decide)
    have hw : ¬(eqFold s "warning" = true) := fun h0 =>
      eqFold_unique s "warning" "critical" h0 h (by decide)
    rw [healthStatusOf, if_neg hok, if_neg hw, if_pos h]
  · intro h
    have hok : ¬(eqFold s "ok" = true) := fun h0 =>
      eqFold_unique s "ok" "unknown" h0 h (by decide)
    have hw : ¬(eqFold s "warning" = true) := fun h0 =>
      eqFold_unique s "warning" "unknown" h0 h (by decide)
    have hc : ¬(eqFold s "critical" = true) := fun h0 =>
      eqFold_unique s "critical" "unknown" h0 h (by decide)
    rw [healthStatusOf, if_neg hok, if_neg hw, if_neg hc, if_pos h]
  · intro h1 h2 h3
    rw [healthStatusOf, if_neg (by simp [h1]), if_neg (by simp [h2]),
      if_neg (by simp [h3]), ite_self]

/-- Witness for C7: `"WaRnInG"` parses to WARNING, `"bogus"` to UNKNOWN. -/
theorem c7_status_parse_witness :
    healthStatusOf "WaRnInG" = CheckState.warning ∧
    healthStatusOf "bogus" = CheckState.unknown :=
  ⟨(c7_status_parse "WaRnInG").2.1 (by decide),
   (c7_status_parse "bogus").2.2.2.2 (by decide) (by decide) (by decide)⟩

/-- C8 counterexample: `"http://h//"` ends in a trailing slash; dropping that
trailing slash gives `"http://h/"`, but the enumeration request paths built
for the two differ — `TrimSuffix` strips only one slash, so the first still
yields the malformed doubled-slash path `"http://h//services"`. -/
theorem c8_trailing_slash_counterexample :
    ("http://h//" : String).data.getLast? = some '/' ∧
    serviceListUrl "http://h//" = "http://h//services" ∧
    serviceListUrl "http://h/" = "http://h/services" ∧
    serviceListUrl "http://h//" ≠ serviceListUrl "http://h/" := by
  refine ⟨by decide, by decide, by decide, by decide⟩

/-- C8 (amended): for every base URL ending in exactly one trailing slash
(i.e. the character before it is not another `/`), the enumeration path and
every per-service health path are the same as for the URL without that
trailing slash; only one trailing slash is stripped before concatenation. -/
theorem c8_trailing_slash_amended (b name group : String)
    (h : b.data.getLast? ≠ some '/') :
    serviceListUrl (b ++ "/") = serviceListUrl b ∧
    serviceHealthUrl (b ++ "/") name group = serviceHealthUrl b name group := by
  have h1 := getSupervisorUrl_append_slash b
  have h2 := getSupervisorUrl_of_no_slash b h
  constructor
  · rw [serviceListUrl, serviceListUrl, h1, h2]
  · rw [serviceHealthUrl, serviceHealthUrl, h1, h2]

/-- Witness for C8 (amended) at the default supervisor URL. -/
theorem c8_trailing_slash_amended_witness :
    serviceListUrl ("http://127.0.0.1:9631" ++ "/") =
      serviceListUrl "http://127.0.0.1:9631" ∧
    serviceHealthUrl ("http://127.0.0.1:9631" ++ "/") "redis" "default" =
      serviceHealthUrl "http://127.0.0.1:9631" "redis" "default" :=
  c8_trailing_slash_amended "http://127.0.0.1:9631" "redis" "default" (by decide)

/-- C10: `checkService` reads `serviceSplit[1]` with no length check, so it
is safe (returns a health) exactly when the service string contains a `.`;
`SplitN` yields two parts exactly then; and an enumerated `service_group`
value without a `.` — which `checkArgs` never validates — makes the whole
check panic. -/
theorem c10_split_panic_precondition (oracle : String → HealthCallResult)
    (s : String) :
    ((checkService oracle s).isSome = true ↔ '.' ∈ s.data) ∧
    ((splitN2 s).length = 2 ↔ '.' ∈ s.data) ∧
    ('.' ∉ s.data → executeCheck [] (Except.ok [s]) oracle = none) := by
  refine ⟨?_, splitN2_length_eq_two_iff s, ?_⟩
  · rw [checkService_eq]
    by_cases hd : '.' ∈ s.data <;> simp [hd]
  · intro hnd
    rw [executeCheck_nil_ok oracle [s] _ rfl]
    simp [runCheck, checkServices, checkService_eq, hnd]

/-- Witness for C10: the enumerated service string `"nodot"` panics the run. -/
theorem c10_split_panic_precondition_witness :
    executeCheck [] (Except.ok ["nodot"]) (fun _ => HealthCallResult.netErr "") =
      none :=
  (c10_split_panic_precondition (fun _ => HealthCallResult.netErr "") "nodot").2.2
    (by decide)

/-- C3: a health request answered with a code other than 200 makes that one
service UNKNOWN (with no error recorded), the run still checks every
service, the aggregate becomes CRITICAL, and the loop output contains the
line naming that service group and UNKNOWN; with that service alone, the
whole check returns CRITICAL with exactly that one output line. -/
theorem c3_non200_unknown (oracle : String → HealthCallResult)
    (svcs : List String) (s : String) (code : Nat) (body : Except String String)
    (hvalid : ∀ t ∈ svcs, '.' ∈ t.data) (hmem : s ∈ svcs)
    (hresp : oracle s = HealthCallResult.response code body) (hcode : code ≠ 200) :
    (checkServices oracle svcs = some (svcs.map (checkServiceD oracle)) ∧
     checkServiceD oracle s =
       { serviceGroup := s, status := CheckState.unknown, error := none } ∧
     aggregateState (svcs.map (checkServiceD oracle)) = CheckState.critical ∧
     (s ++ " UNKNOWN") ∈ (runLoop (svcs.map (checkServiceD oracle))).output) ∧
    (∀ enum, executeCheck [s] enum oracle =
      some { state := CheckState.critical, err := none,
             output := [s ++ " UNKNOWN"] }) := by
  have hdot : '.' ∈ s.data := hvalid s hmem
  have hbodyeq : checkServiceBody oracle s =
      { serviceGroup := s, status := CheckState.unknown, error := none } := by
    simp [checkServiceBody, hresp, hcode]
  have hD : checkServiceD oracle s =
      { serviceGroup := s, status := CheckState.unknown, error := none } := by
    rw [checkServiceD_eq oracle s hdot, hbodyeq]
  have hmemmap :
      ({ serviceGroup := s, status := CheckState.unknown, error := none } : Health) ∈
        svcs.map (checkServiceD oracle) := by
    rw [← hD]
    exact List.mem_map_of_mem _ hmem
  have hagg : aggregateState (svcs.map (checkServiceD oracle)) = CheckState.critical :=
    (aggregate_critical_iff _).mpr ⟨_, hmemmap, Or.inr rfl⟩
  have hout : (s ++ " UNKNOWN") ∈ (runLoop (svcs.map (checkServiceD oracle))).output := by
    rw [runLoop_eq]
    exact List.mem_flatMap.mpr ⟨_, hmemmap, by simp [healthLines, errLines]⟩
  refine ⟨⟨checkServices_eq_map oracle svcs hvalid, hD, hagg, hout⟩, ?_⟩
  intro enum
  rw [executeCheck_explicit oracle [s] enum (by simp)]
  rw [runCheck_eq_of_valid oracle [s] (by
    intro t ht
    rw [List.mem_singleton] at ht
    rw [ht]
    exact hdot)]
  have hmap1 : ([s].map (checkServiceD oracle)) =
      [{ serviceGroup := s, status := CheckState.unknown, error := none }] := by
    simp [hD]
  rw [hmap1, report_critical _
    ⟨{ serviceGroup := s, status := CheckState.unknown, error := none },
     by simp, Or.inr rfl⟩]
  simp [healthLines, errLines]

/-- Witness for C3: the spec scenario — enumeration yields `redis.default`,
its health endpoint answers 404, the check is CRITICAL with the single line
`redis.default UNKNOWN`. -/
theorem c3_non200_unknown_witness :
    executeCheck ["redis.default"] (Except.ok [])
      (fun _ => HealthCallResult.response 404 (Except.error "")) =
      some { state := CheckState.critical, err := none,
             output := ["redis.default" ++ " UNKNOWN"] } :=
  (c3_non200_unknown (fun _ => HealthCallResult.response 404 (Except.error ""))
    ["redis.default"] "redis.default" 404 (Except.error "")
    (by decide) (by decide) rfl (by decide)).2 (Except.ok [])

/-- C5: a decode failure (or network failure) on one service's health call is
attributed to that service only: the run is not aborted, every service's
entry is its own check result, and the failing service's health stays
UNKNOWN with the error recorded against it. -/
theorem c5_isolated_failure (oracle : String → HealthCallResult)
    (svcs : List String) (s msg : String)
    (hvalid : ∀ t ∈ svcs, '.' ∈ t.data) (hmem : s ∈ svcs)
    (hfail : oracle s = HealthCallResult.response 200 (Except.error msg) ∨
             oracle s = HealthCallResult.netErr msg) :
    checkServices oracle svcs = some (svcs.map (checkServiceD oracle)) ∧
    (svcs.map (checkServiceD oracle)).length = svcs.length ∧
    (checkServiceD oracle s =
       { serviceGroup := s, status := CheckState.unknown,
         error := some ("failed to decode health response: " ++ msg) } ∨
     checkServiceD oracle s =
       { serviceGroup := s, status := CheckState.unknown, error := some msg }) := by
  have hdot : '.' ∈ s.data := hvalid s hmem
  refine ⟨checkServices_eq_map oracle svcs hvalid, by simp, ?_⟩
  rcases hfail with hf | hf
  · left
    rw [checkServiceD_eq oracle s hdot]
    simp [checkServiceBody, hf]
  · right
    rw [checkServiceD_eq oracle s hdot]
    simp [checkServiceBody, hf]

/-- Witness for C5: a decode failure on `a.b` leaves `c.d` checked and the
run alive. -/
theorem c5_isolated_failure_witness :
    checkServices
      (fun t => if t = "a.b" then HealthCallResult.response 200 (Except.error "bad json")
                else HealthCallResult.response 200 (Except.ok "ok"))
      ["a.b", "c.d"] =
      some (["a.b", "c.d"].map (checkServiceD
        (fun t => if t = "a.b" then HealthCallResult.response 200 (Except.error "bad json")
                  else HealthCallResult.response 200 (Except.ok "ok")))) :=
  (c5_isolated_failure
    (fun t => if t = "a.b" then HealthCallResult.response 200 (Except.error "bad json")
              else HealthCallResult.response 200 (Except.ok "ok"))
    ["a.b", "c.d"] "a.b" "bad json" (by decide) (by decide)
    (Or.inl rfl)).1

/-- C6: an empty service set reports OK with the no-services message; a
non-empty set whose every health call answers 200 with an `ok` status
reports OK with the all-OK message and emits no per-service line; the two
OK messages are distinct. -/
theorem c6_ok_messages :
    (∀ oracle, executeCheck [] (Except.ok []) oracle =
      some { state := CheckState.ok, err := none,
             output := ["No services loaded"] }) ∧
    (∀ (oracle : String → HealthCallResult) (svcs : List String)
       (enum : Except String (List String)),
      svcs ≠ [] → (∀ t ∈ svcs, '.' ∈ t.data) →
      (∀ t ∈ svcs, ∃ sv, oracle t = HealthCallResult.response 200 (Except.ok sv) ∧
        eqFold sv "ok" = true) →
      executeCheck svcs enum oracle =
        some { state := CheckState.ok, err := none,
               output := ["All health checks returning OK for loaded services"] }) ∧
    ("No services loaded" ≠ "All health checks returning OK for loaded services") := by
  refine ⟨fun oracle => rfl, ?_, by decide⟩
  intro oracle svcs enum hne hvalid hok
  rw [executeCheck_explicit oracle svcs enum hne,
    runCheck_eq_of_valid oracle svcs hvalid]
  have hall : ∀ x ∈ svcs.map (checkServiceD oracle), x.status = CheckState.ok := by
    intro x hx
    obtain ⟨t, ht, rfl⟩ := List.mem_map.mp hx
    obtain ⟨sv, hor, hfold⟩ := hok t ht
    rw [checkServiceD_eq oracle t (hvalid t ht)]
    simp [checkServiceBody, hor]
    rw [healthStatusOf, if_pos hfold]
  have herr : ∀ x ∈ svcs.map (checkServiceD oracle), x.error = none := by
    intro x hx
    obtain ⟨t, ht, rfl⟩ := List.mem_map.mp hx
    obtain ⟨sv, hor, hfold⟩ := hok t ht
    rw [checkServiceD_eq oracle t (hvalid t ht)]
    simp [checkServiceBody, hor]
  have hmapne : svcs.map (checkServiceD oracle) ≠ [] := by
    simp [hne]
  rw [report_all_ok _ hmapne hall]
  have hnil : (svcs.map (checkServiceD oracle)).flatMap healthLines = [] := by
    rw [List.flatMap_eq_nil_iff]
    intro x hx
    exact healthLines_ok_of_no_error x (hall x hx) (herr x hx)
  rw [hnil]
  simp

/-- Witness for C6: one service `redis.default` whose health body decodes
with status `ok` — result OK, only the all-OK message, no per-service line. -/
theorem c6_ok_messages_witness :
    executeCheck ["redis.default"] (Except.ok [])
      (fun _ => HealthCallResult.response 200 (Except.ok "ok")) =
      some { state := CheckState.ok, err := none,
             output := ["All health checks returning OK for loaded services"] } :=
  c6_ok_messages.2.1 (fun _ => HealthCallResult.response 200 (Except.ok "ok"))
    ["redis.default"] (Except.ok []) (by decide) (by decide)
    (fun t _ => ⟨"ok", rfl, by decide⟩)

/-- C9: the loop's printed output is exactly the concatenation, over the
health list in order, of each health's lines; a non-OK health contributes
exactly one line made of its service group and its status word (followed by
its error paragraph when present), an OK health contributes no status line,
and an OK health produced by `checkService` contributes no line at all. -/
theorem c9_per_service_lines (hs : List Health) :
    ((runLoop hs).output = hs.flatMap healthLines) ∧
    (∀ g e st, st ≠ CheckState.ok →
      healthLines { serviceGroup := g, status := st, error := e } =
        (g ++ " " ++ statusWord st) :: errLines e) ∧
    (∀ g e, healthLines { serviceGroup := g, status := CheckState.ok, error := e } =
      errLines e) ∧
    (∀ oracle s h, checkService oracle s = some h → h.status = CheckState.ok →
      healthLines h = []) := by
  refine ⟨by rw [runLoop_eq], ?_, ?_, ?_⟩
  · intro g e st hne
    cases st with
    | ok => exact absurd rfl hne
    | warning =>
      have hx : (" " : String) ++ statusWord CheckState.warning = " WARNING" := by decide
      rw [String.append_assoc, hx]
      simp [healthLines]
    | critical =>
      have hx : (" " : String) ++ statusWord CheckState.critical = " CRITICAL" := by decide
      rw [String.append_assoc, hx]
      simp [healthLines]
    | unknown =>
      have hx : (" " : String) ++ statusWord CheckState.unknown = " UNKNOWN" := by decide
      rw [String.append_assoc, hx]
      simp [healthLines]
  · intro g e
    simp [healthLines]
  · intro oracle s h hcs hok
    rw [checkService_eq] at hcs
    by_cases hd : '.' ∈ s.data
    · rw [if_pos hd] at hcs
      obtain hh := Option.some.inj hcs
      subst hh
      exact healthLines_ok_of_no_error _ hok (checkServiceBody_ok_no_error oracle s hok)
    · rw [if_neg hd] at hcs
      exact Option.noConfusion hcs

/-- Witness for C9 at concrete healths: one WARNING health yields exactly its
status line, one OK health yields nothing. -/
theorem c9_per_service_lines_witness :
    healthLines { serviceGroup := "a.b", status := CheckState.warning,
                  error := none } =
      ("a.b" ++ " " ++ statusWord CheckState.warning) :: errLines none ∧
    healthLines { serviceGroup := "c.d", status := CheckState.ok,
                  error := none } = errLines none :=
  ⟨(c9_per_service_lines []).2.1 "a.b" none CheckState.warning (by decide),
   (c9_per_service_lines []).2.2.1 "c.d" none⟩

end HabitatCheck
